import Mathlib

/-!
Shallow embedding of the Supermart grocery dashboard (`src/app.py`).

The dataset is a list of records with the columns used by the three
callbacks.  pandas float columns (`Sales`, `Profit`, `Discount`) are
modelled as rationals; float division, whose result is non-finite
(NaN/inf) exactly when the denominator is zero, is modelled as an
`Option ℚ` (`none` = non-finite).  Dates are year/month/day triples
compared chronologically, and `groupby` over a column is modelled as
mapping over the sorted distinct keys and summing the matching rows,
which is pandas' default `sort=True` behaviour.
-/

namespace Supermart

/-- A calendar date (`Order Date` after `pd.to_datetime`). -/
structure Date where
  year : Nat
  month : Nat
  day : Nat
deriving DecidableEq, Repr

/-- Chronological comparison of dates, as pandas compares datetimes. -/
def Date.le (a b : Date) : Prop :=
  a.year < b.year ∨
    (a.year = b.year ∧
      (a.month < b.month ∨ (a.month = b.month ∧ a.day ≤ b.day)))

instance : DecidableRel Date.le := fun a b => by
  unfold Date.le; exact inferInstance

/-- One row of the loaded CSV: the columns the callbacks read. -/
structure Record where
  orderDate : Date
  orderId : String
  region : String
  category : String
  subCategory : String
  sales : ℚ
  profit : ℚ
  discount : ℚ
deriving DecidableEq, Repr

/-- Derived column `Year` (`df['Order Date'].dt.year`). -/
def Record.year (r : Record) : Nat := r.orderDate.year

/-- Derived column `Month` (`df['Order Date'].dt.month`). -/
def Record.month (r : Record) : Nat := r.orderDate.month

/-- Index of a record's calendar month on the month axis; two records get
the same index iff they fall in the same `pd.Grouper(freq='M')` bucket. -/
def monthIdx (r : Record) : Nat := r.year * 12 + (r.month - 1)

/-- `filtered_df['Sales'].sum()` -/
def sumSales (l : List Record) : ℚ := (l.map Record.sales).sum

/-- `filtered_df['Profit'].sum()` -/
def sumProfit (l : List Record) : ℚ := (l.map Record.profit).sum

/-- Float division `p / s`: `none` models the non-finite float (NaN or
±inf) that IEEE division produces exactly when `s = 0`. -/
def fdiv (p s : ℚ) : Option ℚ := if s = 0 then none else some (p / s)

/-- `[lo, lo+1, ..., hi]` — the month buckets `pd.Grouper(freq='M')`
produces between the earliest and latest filtered date (a resample-style
grouper emits every intermediate calendar month, empty ones included). -/
def monthRange (lo hi : Nat) : List Nat :=
  (List.range (hi + 1 - lo)).map (fun i => lo + i)

/-- One row of `monthly_data`: columns `Order Date` (the bucket), `Sales`,
`Profit` — no margin column is computed for the monthly aggregate. -/
structure MonthlyRow where
  bucket : Nat
  sales : ℚ
  profit : ℚ
deriving DecidableEq, Repr

/-- `filtered_df.groupby(pd.Grouper(key='Order Date', freq='M')).agg(...)`:
one row per calendar month from the earliest to the latest filtered date,
holding the sums of `Sales` and `Profit` over that month's records. -/
def monthlyAgg : List Record → List MonthlyRow
  | [] => []
  | x :: xs =>
    let lo := (xs.map monthIdx).foldl Nat.min (monthIdx x)
    let hi := (xs.map monthIdx).foldl Nat.max (monthIdx x)
    (monthRange lo hi).map (fun b =>
      { bucket := b
        sales := sumSales ((x :: xs).filter (fun r => monthIdx r == b))
        profit := sumProfit ((x :: xs).filter (fun r => monthIdx r == b)) })

/-- `df[(df['Order Date'] >= start_date) & (df['Order Date'] <= end_date)]` -/
def filterByDate (ds : List Record) (startDate endDate : Date) : List Record :=
  ds.filter (fun r =>
    decide (Date.le startDate r.orderDate) && decide (Date.le r.orderDate endDate))

/-- Everything `update_sales_dashboard` computes from the data (the four
overview scalars and the data behind the three figures). -/
structure SalesDashboard where
  totalSales : ℚ
  totalProfit : ℚ
  avgProfitMargin : ℚ
  orderCount : Nat
  monthlyData : List MonthlyRow
  scatterData : List (ℚ × ℚ × String)
deriving DecidableEq, Repr

/-- `update_sales_dashboard(start_date, end_date)` from `src/app.py`. -/
def updateSalesDashboard (ds : List Record) (startDate endDate : Date) :
    SalesDashboard :=
  let filtered := filterByDate ds startDate endDate
  let totalSales := sumSales filtered
  let totalProfit := sumProfit filtered
  { totalSales := totalSales
    totalProfit := totalProfit
    avgProfitMargin := if 0 < totalSales then totalProfit / totalSales * 100 else 0
    orderCount := (filtered.map Record.orderId).dedup.length
    monthlyData := monthlyAgg filtered
    scatterData := filtered.map (fun r => (r.discount, r.sales, r.category)) }

/-- One row of `region_data`: columns `Region`, `Sales`, `Profit`, `Margin`.
The margin is the unguarded float `(Profit / Sales) * 100`. -/
structure RegionRow where
  region : String
  sales : ℚ
  profit : ℚ
  margin : Option ℚ
deriving DecidableEq, Repr

/-- The distinct regions, sorted (pandas `groupby('Region')` key order). -/
def regionKeys (ds : List Record) : List String :=
  List.insertionSort (· ≤ ·) (ds.map Record.region).dedup

/-- `df.groupby('Region').agg({'Sales':'sum','Profit':'sum'})` followed by
`region_data['Margin'] = (region_data['Profit'] / region_data['Sales']) * 100`. -/
def regionAgg (ds : List Record) : List RegionRow :=
  (regionKeys ds).map (fun g =>
    let l := ds.filter (fun r => r.region == g)
    { region := g
      sales := sumSales l
      profit := sumProfit l
      margin := (fdiv (sumProfit l) (sumSales l)).map (fun q => q * 100) })

/-- Lexicographic order on `(Region, Year)` keys, pandas' multi-key order. -/
def pairLeSN (a b : String × Nat) : Prop :=
  a.1 < b.1 ∨ (a.1 = b.1 ∧ a.2 ≤ b.2)

instance : DecidableRel pairLeSN := fun a b => by
  unfold pairLeSN; exact inferInstance

/-- The distinct `(Region, Year)` pairs, sorted. -/
def regionYearKeys (ds : List Record) : List (String × Nat) :=
  List.insertionSort pairLeSN ((ds.map (fun r => (r.region, r.year))).dedup)

/-- One row of `regional_perf`: columns `Region`, `Year`, `Sales`, `Profit`,
`Margin` (again the unguarded `(Profit / Sales) * 100`). -/
structure RegionYearRow where
  region : String
  year : Nat
  sales : ℚ
  profit : ℚ
  margin : Option ℚ
deriving DecidableEq, Repr

/-- `df.groupby(['Region','Year']).agg({'Sales':'sum','Profit':'sum'})`
followed by `regional_perf['Margin'] = (Profit / Sales) * 100`. -/
def regionYearAgg (ds : List Record) : List RegionYearRow :=
  (regionYearKeys ds).map (fun k =>
    let l := ds.filter (fun r => r.region == k.1 && r.year == k.2)
    { region := k.1
      year := k.2
      sales := sumSales l
      profit := sumProfit l
      margin := (fdiv (sumProfit l) (sumSales l)).map (fun q => q * 100) })

/-- The `region-metric` radio selection. -/
inductive Metric
  | Sales
  | Profit
  | Margin
deriving DecidableEq, Repr

/-- The string value carried by the radio item. -/
def metricName : Metric → String
  | .Sales => "Sales"
  | .Profit => "Profit"
  | .Margin => "Margin"

/-- The `region_data` column the bar chart plots for a metric. -/
def metricValue : Metric → RegionRow → Option ℚ
  | .Sales, r => some r.sales
  | .Profit, r => some r.profit
  | .Margin, r => r.margin

/-- `bar_title` in `update_region_analysis`. -/
def barTitle (m : Metric) : String :=
  if m = Metric.Margin then "Profit Margin (%) by Region"
  else "Total " ++ metricName m ++ " by Region"

/-- Everything `update_region_analysis` computes from the data. -/
structure RegionAnalysis where
  barTitle : String
  barSeries : List (String × Option ℚ)
  scatterData : List RegionYearRow
deriving DecidableEq, Repr

/-- `update_region_analysis(metric)` from `src/app.py`. -/
def updateRegionAnalysis (ds : List Record) (m : Metric) : RegionAnalysis :=
  { barTitle := barTitle m
    barSeries := (regionAgg ds).map (fun row => (row.region, metricValue m row))
    scatterData := regionYearAgg ds }

/-- One row of `category_data`: columns `Category`, `Sales`, `Profit` —
no margin column is computed for the category aggregate. -/
structure CatRow where
  category : String
  sales : ℚ
  profit : ℚ
deriving DecidableEq, Repr

/-- One row of `subcategory_data` / `treemap_data`: columns `Category`,
`Sub Category`, `Sales`. -/
structure SubcatRow where
  category : String
  subCategory : String
  sales : ℚ
deriving DecidableEq, Repr

/-- `filtered_df.groupby('Category').agg({'Sales':'sum','Profit':'sum'})`. -/
def categoryAgg (l : List Record) : List CatRow :=
  (List.insertionSort (· ≤ ·) (l.map Record.category).dedup).map (fun c =>
    let g := l.filter (fun r => r.category == c)
    { category := c
      sales := sumSales g
      profit := sumProfit g })

/-- Lexicographic order on `(Category, Sub Category)` keys. -/
def pairLeSS (a b : String × String) : Prop :=
  a.1 < b.1 ∨ (a.1 = b.1 ∧ a.2 ≤ b.2)

instance : DecidableRel pairLeSS := fun a b => by
  unfold pairLeSS; exact inferInstance

/-- `filtered_df.groupby(['Category','Sub Category']).agg({'Sales':'sum'})`. -/
def subcategoryAgg (l : List Record) : List SubcatRow :=
  (List.insertionSort pairLeSS
      ((l.map (fun r => (r.category, r.subCategory))).dedup)).map (fun k =>
    let g := l.filter (fun r => r.category == k.1 && r.subCategory == k.2)
    { category := k.1
      subCategory := k.2
      sales := sumSales g })

/-- Descending comparison on the summed sales (the order the sorted
series exhibits). -/
def salesDesc (a b : SubcatRow) : Prop := b.sales ≤ a.sales

/-- Ascending comparison on the summed sales. -/
def salesAsc (a b : SubcatRow) : Prop := a.sales ≤ b.sales

instance : DecidableRel salesAsc := fun a b =>
  inferInstanceAs (Decidable (a.sales ≤ b.sales))

instance : IsTotal SubcatRow salesAsc := ⟨fun a b => le_total a.sales b.sales⟩

instance : IsTrans SubcatRow salesAsc := ⟨fun _ _ _ h1 h2 => le_trans h1 h2⟩

/-- `subcategory_data.sort_values('Sales', ascending=False).head(10)`.
pandas (`nargsort`) implements a single-column descending sort by
argsorting the column ascending and reversing the whole indexer; the
default `kind='quicksort'` leaves the relative order of equal keys
unspecified, which this model fixes as the stable kind pandas also
offers.  Either way, rows with equal sales do NOT keep the grouping
order: under the stable kind they come out reversed. -/
def top10Subcats (l : List Record) : List SubcatRow :=
  ((List.insertionSort salesAsc (subcategoryAgg l)).reverse).take 10

/-- Everything `update_category_analysis` computes from the data. -/
structure CategoryAnalysis where
  categorySeries : List CatRow
  subcategorySeries : List SubcatRow
  treemapSeries : List SubcatRow
deriving DecidableEq, Repr

/-- The three series computed from the category-filtered rows. -/
def catOutputs (l : List Record) : CategoryAnalysis :=
  { categorySeries := categoryAgg l
    subcategorySeries := top10Subcats l
    treemapSeries := subcategoryAgg l }

/-- `update_category_analysis(categories)` from `src/app.py`:
`filtered_df = df[df['Category'].isin(categories)]` then the three series. -/
def updateCategoryAnalysis (ds : List Record) (categories : List String) :
    CategoryAnalysis :=
  catOutputs (ds.filter (fun r => decide (r.category ∈ categories)))

end Supermart

namespace Supermart

/-! ### Helper lemmas -/

theorem foldl_min_le_init (l : List Nat) (a : Nat) : l.foldl Nat.min a ≤ a := by
  induction l generalizing a with
  | nil => exact le_refl a
  | cons b l ih => exact le_trans (ih (Nat.min a b)) (Nat.min_le_left a b)

theorem foldl_min_le_mem {x : Nat} (l : List Nat) (a : Nat) (h : x ∈ l) :
    l.foldl Nat.min a ≤ x := by
  induction l generalizing a with
  | nil => cases h
  | cons b l ih =>
    rcases List.mem_cons.mp h with rfl | hx
    · exact le_trans (foldl_min_le_init l (Nat.min a x)) (Nat.min_le_right a x)
    · exact ih (Nat.min a b) hx

theorem init_le_foldl_max (l : List Nat) (a : Nat) : a ≤ l.foldl Nat.max a := by
  induction l generalizing a with
  | nil => exact le_refl a
  | cons b l ih => exact le_trans (Nat.le_max_left a b) (ih (Nat.max a b))

theorem mem_le_foldl_max {x : Nat} (l : List Nat) (a : Nat) (h : x ∈ l) :
    x ≤ l.foldl Nat.max a := by
  induction l generalizing a with
  | nil => cases h
  | cons b l ih =>
    rcases List.mem_cons.mp h with rfl | hx
    · exact le_trans (Nat.le_max_right a x) (init_le_foldl_max l (Nat.max a x))
    · exact ih (Nat.max a b) hx

theorem mem_monthRange {lo hi k : Nat} :
    k ∈ monthRange lo hi ↔ lo ≤ k ∧ k < hi + 1 := by
  unfold monthRange
  constructor
  · rintro h
    rcases List.mem_map.mp h with ⟨i, hi_mem, rfl⟩
    have := List.mem_range.mp hi_mem
    omega
  · rintro ⟨h1, h2⟩
    exact List.mem_map.mpr ⟨k - lo, List.mem_range.mpr (by omega), by omega⟩

theorem nodup_monthRange (lo hi : Nat) : (monthRange lo hi).Nodup :=
  (List.nodup_range _).map (fun _ _ h => by omega)

theorem sum_map_add {κ : Type} (g h : κ → ℚ) (ks : List κ) :
    (ks.map (fun k => g k + h k)).sum = (ks.map g).sum + (ks.map h).sum := by
  induction ks with
  | nil => simp
  | cons k ks ih => simp [ih]; ring

theorem sum_ite_key_zero {κ : Type} [BEq κ] [LawfulBEq κ] (k0 : κ) (c : ℚ)
    (ks : List κ) (hmem : k0 ∉ ks) :
    (ks.map (fun k => if k0 == k then c else 0)).sum = 0 := by
  induction ks with
  | nil => simp
  | cons k ks ih =>
    have hne : k0 ≠ k := fun h => hmem (h ▸ List.mem_cons_self k ks)
    have hnotin : k0 ∉ ks := fun h => hmem (List.mem_cons_of_mem _ h)
    simp [hne, ih hnotin]

theorem sum_ite_key {κ : Type} [BEq κ] [LawfulBEq κ] (k0 : κ) (c : ℚ)
    (ks : List κ) (hnd : ks.Nodup) (hmem : k0 ∈ ks) :
    (ks.map (fun k => if k0 == k then c else 0)).sum = c := by
  induction ks with
  | nil => cases hmem
  | cons k ks ih =>
    rcases List.mem_cons.mp hmem with rfl | hx
    · have hnotin : k0 ∉ ks := (List.nodup_cons.mp hnd).1
      simp [sum_ite_key_zero _ _ _ hnotin]
    · have hne : k0 ≠ k := fun h => (List.nodup_cons.mp hnd).1 (h ▸ hx)
      have := ih (List.nodup_cons.mp hnd).2 hx
      simp [hne, this]

/-- Summing a group-by result over all group keys gives back the total sum,
provided the key list has no duplicates and covers every row. -/
theorem sum_partition {κ : Type} [BEq κ] [LawfulBEq κ] (key : Record → κ)
    (f : Record → ℚ) (ks : List κ) (l : List Record) (hnd : ks.Nodup)
    (hcov : ∀ x ∈ l, key x ∈ ks) :
    (ks.map (fun k => ((l.filter (fun x => key x == k)).map f).sum)).sum
      = (l.map f).sum := by
  induction l with
  | nil => simp
  | cons x l ih =>
    have hx : key x ∈ ks := hcov x (List.mem_cons_self x l)
    have hcov' : ∀ y ∈ l, key y ∈ ks := fun y hy => hcov y (List.mem_cons_of_mem _ hy)
    have hstep : ∀ k : κ,
        (((x :: l).filter (fun y => key y == k)).map f).sum
          = (if key x == k then f x else 0)
            + ((l.filter (fun y => key y == k)).map f).sum := by
      intro k
      by_cases h : key x = k
      · simp [List.filter_cons, h]
      · simp [List.filter_cons, h]
    calc (ks.map (fun k => (((x :: l).filter (fun y => key y == k)).map f).sum)).sum
        = (ks.map (fun k => (if key x == k then f x else 0)
            + ((l.filter (fun y => key y == k)).map f).sum)).sum := by
          simp only [hstep]
      _ = (ks.map (fun k => if key x == k then f x else 0)).sum
            + (ks.map (fun k => ((l.filter (fun y => key y == k)).map f).sum)).sum :=
          sum_map_add _ _ ks
      _ = f x + (l.map f).sum := by
          rw [sum_ite_key (key x) (f x) ks hnd hx, ih hcov']
      _ = ((x :: l).map f).sum := by simp

end Supermart

namespace Supermart

/-! ### Claims -/

/-- C1: for every date window (inclusive start and end), the sales
dashboard's total sales is the sum of `Sales` over the records whose
order date lies in the window, total profit is the sum of `Profit` over
those records, and the order count is the number of distinct `Order ID`
values among them. -/
theorem sales_dashboard_scalars_correct (ds : List Record) (s e : Date) :
    (updateSalesDashboard ds s e).totalSales
        = ((ds.filter (fun r =>
            decide (Date.le s r.orderDate) && decide (Date.le r.orderDate e))).map
            Record.sales).sum
      ∧ (updateSalesDashboard ds s e).totalProfit
        = ((ds.filter (fun r =>
            decide (Date.le s r.orderDate) && decide (Date.le r.orderDate e))).map
            Record.profit).sum
      ∧ (updateSalesDashboard ds s e).orderCount
        = ((ds.filter (fun r =>
            decide (Date.le s r.orderDate) && decide (Date.le r.orderDate e))).map
            Record.orderId).dedup.length :=
  ⟨rfl, rfl, rfl⟩

/-- C3: whenever the filtered window's total sales is `0`, the profit
margin scalar is `0` (the guarded branch), not an undefined value. -/
theorem margin_zero_when_no_sales (ds : List Record) (s e : Date)
    (h : (updateSalesDashboard ds s e).totalSales = 0) :
    (updateSalesDashboard ds s e).avgProfitMargin = 0 := by
  have h' : sumSales (filterByDate ds s e) = 0 := h
  show (if 0 < sumSales (filterByDate ds s e)
      then sumProfit (filterByDate ds s e) / sumSales (filterByDate ds s e) * 100
      else 0) = 0
  rw [h']
  norm_num

/-- Witness for C3: the empty dataset has zero total sales and margin `0`. -/
theorem margin_zero_when_no_sales_witness :
    (updateSalesDashboard [] ⟨2023, 1, 1⟩ ⟨2023, 12, 31⟩).avgProfitMargin = 0 :=
  margin_zero_when_no_sales [] ⟨2023, 1, 1⟩ ⟨2023, 12, 31⟩ rfl

/-- C4: a window that selects no records yields zero for all four scalars
and empty monthly and scatter series (and, being a total function, the
computation raises no error). -/
theorem empty_window_yields_zeros (ds : List Record) (s e : Date)
    (h : filterByDate ds s e = []) :
    (updateSalesDashboard ds s e).totalSales = 0
      ∧ (updateSalesDashboard ds s e).totalProfit = 0
      ∧ (updateSalesDashboard ds s e).avgProfitMargin = 0
      ∧ (updateSalesDashboard ds s e).orderCount = 0
      ∧ (updateSalesDashboard ds s e).monthlyData = []
      ∧ (updateSalesDashboard ds s e).scatterData = [] := by
  simp [updateSalesDashboard, h, sumSales, sumProfit, monthlyAgg]

/-- A one-record dataset used to witness C4. -/
def sampleC4 : List Record :=
  [⟨⟨2023, 1, 15⟩, "O1", "South", "Fruit", "Apple", 100, 20, 0⟩]

/-- Witness for C4: a reversed window (start after end) over a nonempty
dataset selects nothing and produces all-zero, all-empty outputs. -/
theorem empty_window_yields_zeros_witness :
    (updateSalesDashboard sampleC4 ⟨2024, 1, 1⟩ ⟨2023, 1, 1⟩).totalSales = 0
      ∧ (updateSalesDashboard sampleC4 ⟨2024, 1, 1⟩ ⟨2023, 1, 1⟩).totalProfit = 0
      ∧ (updateSalesDashboard sampleC4 ⟨2024, 1, 1⟩ ⟨2023, 1, 1⟩).avgProfitMargin = 0
      ∧ (updateSalesDashboard sampleC4 ⟨2024, 1, 1⟩ ⟨2023, 1, 1⟩).orderCount = 0
      ∧ (updateSalesDashboard sampleC4 ⟨2024, 1, 1⟩ ⟨2023, 1, 1⟩).monthlyData = []
      ∧ (updateSalesDashboard sampleC4 ⟨2024, 1, 1⟩ ⟨2023, 1, 1⟩).scatterData = [] :=
  empty_window_yields_zeros sampleC4 ⟨2024, 1, 1⟩ ⟨2023, 1, 1⟩ (by decide)

/-- C10: the per-(region, year) scatter series is independent of the
selected metric — any two metric choices give identical scatter data. -/
theorem scatter_independent_of_metric (ds : List Record) (m₁ m₂ : Metric) :
    (updateRegionAnalysis ds m₁).scatterData
      = (updateRegionAnalysis ds m₂).scatterData := rfl

end Supermart

namespace Supermart

theorem monthlyAgg_sum (l : List Record) :
    (((monthlyAgg l).map MonthlyRow.sales).sum = sumSales l)
      ∧ (((monthlyAgg l).map MonthlyRow.profit).sum = sumProfit l) := by
  cases l with
  | nil => simp [monthlyAgg, sumSales, sumProfit]
  | cons x xs =>
    have hcov : ∀ r ∈ x :: xs, monthIdx r ∈
        monthRange ((xs.map monthIdx).foldl Nat.min (monthIdx x))
          ((xs.map monthIdx).foldl Nat.max (monthIdx x)) := by
      intro r hr
      apply mem_monthRange.mpr
      rcases List.mem_cons.mp hr with rfl | hr'
      · refine ⟨foldl_min_le_init _ _, ?_⟩
        have := init_le_foldl_max (xs.map monthIdx) (monthIdx r)
        omega
      · have hmem : monthIdx r ∈ xs.map monthIdx := List.mem_map_of_mem _ hr'
        refine ⟨foldl_min_le_mem _ _ hmem, ?_⟩
        have := mem_le_foldl_max (xs.map monthIdx) (monthIdx x) hmem
        omega
    have hnd := nodup_monthRange ((xs.map monthIdx).foldl Nat.min (monthIdx x))
      ((xs.map monthIdx).foldl Nat.max (monthIdx x))
    constructor
    · have h := sum_partition monthIdx Record.sales _ (x :: xs) hnd hcov
      simpa [monthlyAgg, sumSales, List.map_map, Function.comp] using h
    · have h := sum_partition monthIdx Record.profit _ (x :: xs) hnd hcov
      simpa [monthlyAgg, sumProfit, List.map_map, Function.comp] using h

/-- C2: the per-month bucket sums of sales and profit, summed over all
monthly buckets of a window, equal the window's total sales and total
profit exactly. -/
theorem monthly_buckets_conserve_totals (ds : List Record) (s e : Date) :
    (((updateSalesDashboard ds s e).monthlyData).map MonthlyRow.sales).sum
        = (updateSalesDashboard ds s e).totalSales
      ∧ (((updateSalesDashboard ds s e).monthlyData).map MonthlyRow.profit).sum
        = (updateSalesDashboard ds s e).totalProfit :=
  ⟨(monthlyAgg_sum (filterByDate ds s e)).1, (monthlyAgg_sum (filterByDate ds s e)).2⟩

end Supermart

namespace Supermart

theorem regionKeys_nodup (ds : List Record) : (regionKeys ds).Nodup :=
  (List.perm_insertionSort _ _).nodup_iff.mpr (List.nodup_dedup _)

theorem mem_regionKeys {ds : List Record} {r : Record} (hr : r ∈ ds) :
    r.region ∈ regionKeys ds :=
  (List.perm_insertionSort _ _).mem_iff.mpr
    (List.mem_dedup.mpr (List.mem_map_of_mem _ hr))

theorem region_agg_sum (ds : List Record) :
    ((regionAgg ds).map RegionRow.sales).sum = (ds.map Record.sales).sum
      ∧ ((regionAgg ds).map RegionRow.profit).sum = (ds.map Record.profit).sum := by
  have hcov : ∀ x ∈ ds, Record.region x ∈ regionKeys ds := fun _ h => mem_regionKeys h
  constructor
  · have h := sum_partition Record.region Record.sales (regionKeys ds) ds
      (regionKeys_nodup ds) hcov
    simpa [regionAgg, sumSales, List.map_map, Function.comp] using h
  · have h := sum_partition Record.region Record.profit (regionKeys ds) ds
      (regionKeys_nodup ds) hcov
    simpa [regionAgg, sumProfit, List.map_map, Function.comp] using h

theorem filterMap_some_eq_map {α β : Type} (f : α → β) (l : List α) :
    (l.filterMap (fun x => some (f x))) = l.map f := by
  induction l with
  | nil => rfl
  | cons x xs ih => simp [ih]

/-- C5: the region aggregation groups the whole dataset (no date filter);
for the Sales and Profit metrics the bar values summed over all regions
equal the dataset's global totals. -/
theorem region_bars_conserve_totals (ds : List Record) :
    ((updateRegionAnalysis ds Metric.Sales).barSeries.filterMap Prod.snd).sum
        = (ds.map Record.sales).sum
      ∧ ((updateRegionAnalysis ds Metric.Profit).barSeries.filterMap Prod.snd).sum
        = (ds.map Record.profit).sum := by
  constructor
  · have : (updateRegionAnalysis ds Metric.Sales).barSeries.filterMap Prod.snd
        = (regionAgg ds).map RegionRow.sales := by
      show ((regionAgg ds).map
          (fun row => (row.region, metricValue Metric.Sales row))).filterMap Prod.snd
        = (regionAgg ds).map RegionRow.sales
      rw [List.filterMap_map]
      exact filterMap_some_eq_map RegionRow.sales (regionAgg ds)
    rw [this]
    exact (region_agg_sum ds).1
  · have : (updateRegionAnalysis ds Metric.Profit).barSeries.filterMap Prod.snd
        = (regionAgg ds).map RegionRow.profit := by
      show ((regionAgg ds).map
          (fun row => (row.region, metricValue Metric.Profit row))).filterMap Prod.snd
        = (regionAgg ds).map RegionRow.profit
      rw [List.filterMap_map]
      exact filterMap_some_eq_map RegionRow.profit (regionAgg ds)
    rw [this]
    exact (region_agg_sum ds).2

end Supermart

namespace Supermart

open List

/-- C6: selecting every category present in the dataset produces the same
three series as applying no filter at all, and selecting the empty set of
categories produces empty outputs for all three series. -/
theorem category_filter_full_and_empty (ds : List Record) (cats : List String) :
    ((∀ r ∈ ds, r.category ∈ cats) →
        updateCategoryAnalysis ds cats = catOutputs ds)
      ∧ updateCategoryAnalysis ds [] = ⟨[], [], []⟩ := by
  constructor
  · intro h
    unfold updateCategoryAnalysis
    congr 1
    exact List.filter_eq_self.mpr (fun r hr => decide_eq_true (h r hr))
  · unfold updateCategoryAnalysis
    have hnil : ds.filter (fun r => decide (r.category ∈ ([] : List String))) = [] := by
      simp
    rw [hnil]
    rfl

/-- A one-record dataset used to witness C6. -/
def sampleC6 : List Record :=
  [⟨⟨2023, 1, 15⟩, "O1", "South", "Fruit", "Apple", 100, 20, 0⟩]

/-- Witness for C6: with the full category set of the sample dataset the
category analysis coincides with the unfiltered one. -/
theorem category_filter_full_and_empty_witness :
    updateCategoryAnalysis sampleC6 ["Fruit"] = catOutputs sampleC6 :=
  (category_filter_full_and_empty sampleC6 ["Fruit"]).1 (by decide)

/-- A dataset with two equal-sales sub-categories, used for C7:
`sort_values(ascending=False)` reverses an ascending argsort, so the tied
rows appear in reversed grouping order, not in the grouping order. -/
def sampleC7x : List Record :=
  [⟨⟨2023, 1, 15⟩, "O1", "South", "Fruit", "Apple", 100, 20, 0⟩,
   ⟨⟨2023, 1, 16⟩, "O2", "South", "Fruit", "Banana", 100, 20, 0⟩]

/-- Counterexample for C7: with two sub-categories of equal summed sales,
the top-10 series lists them in reversed grouping order, so the claimed
tie-break by the original grouping order (stability: restricting to any
fixed sales value gives a prefix of the grouped rows with that value)
fails, refuting the claim as stated. -/
theorem top10_tiebreak_cex :
    ¬ (((updateCategoryAnalysis sampleC7x ["Fruit"]).subcategorySeries).length ≤ 10
      ∧ ((updateCategoryAnalysis sampleC7x ["Fruit"]).subcategorySeries).Pairwise salesDesc
      ∧ (∀ x ∈ (updateCategoryAnalysis sampleC7x ["Fruit"]).subcategorySeries,
          x ∈ subcategoryAgg (sampleC7x.filter (fun r => decide (r.category ∈ ["Fruit"]))))
      ∧ ∀ v : ℚ,
          ((updateCategoryAnalysis sampleC7x ["Fruit"]).subcategorySeries).filter
              (fun y => y.sales == v)
            <+: (subcategoryAgg (sampleC7x.filter (fun r =>
                  decide (r.category ∈ ["Fruit"])))).filter (fun y => y.sales == v)) := by
  intro h
  have h4 := h.2.2.2 100
  have e1 : (updateCategoryAnalysis sampleC7x ["Fruit"]).subcategorySeries
      = [⟨"Fruit", "Banana", 100⟩, ⟨"Fruit", "Apple", 100⟩] := by
    simp +decide [updateCategoryAnalysis, catOutputs, top10Subcats, subcategoryAgg,
      sampleC7x, sumSales, salesAsc, pairLeSS, List.insertionSort, List.orderedInsert]
  have e2 : subcategoryAgg (sampleC7x.filter (fun r => decide (r.category ∈ ["Fruit"])))
      = [⟨"Fruit", "Apple", 100⟩, ⟨"Fruit", "Banana", 100⟩] := by
    simp +decide [subcategoryAgg, sampleC7x, sumSales, pairLeSS,
      List.insertionSort, List.orderedInsert]
  rw [e1, e2] at h4
  simp only [List.filter_cons, List.filter_nil] at h4
  norm_num at h4
  rcases h4 with ⟨t, ht⟩
  simp at ht

/-- C7 (amended): the top-10 sub-category series has length at most 10, is
sorted by summed sales in descending order, and consists of rows of the
grouped (category, sub-category) sales sums of the filtered records; the
order among rows with equal sales is that of the unstable descending sort
(reversed grouping order under pandas' stable kind), not the original
grouping order. -/
theorem top10_subcategory_spec (ds : List Record) (cats : List String) :
    ((updateCategoryAnalysis ds cats).subcategorySeries).length ≤ 10
      ∧ ((updateCategoryAnalysis ds cats).subcategorySeries).Pairwise salesDesc
      ∧ (∀ x ∈ (updateCategoryAnalysis ds cats).subcategorySeries,
          x ∈ subcategoryAgg (ds.filter (fun r => decide (r.category ∈ cats)))) := by
  refine ⟨List.length_take_le 10 _, ?_, ?_⟩
  · have hs : (List.insertionSort salesAsc
        (subcategoryAgg (ds.filter (fun r =>
          decide (r.category ∈ cats))))).reverse.Pairwise salesDesc := by
      rw [List.pairwise_reverse]
      exact List.sorted_insertionSort salesAsc _
    exact hs.sublist (List.take_sublist 10 _)
  · intro x hx
    have hx1 := List.mem_of_mem_take hx
    rw [List.mem_reverse] at hx1
    exact (List.perm_insertionSort salesAsc _).mem_iff.mp hx1

end Supermart

namespace Supermart

/-- A dataset whose single region has summed sales `0`, used for C8. -/
def sampleC8 : List Record :=
  [⟨⟨2023, 1, 15⟩, "O1", "North", "Fruit", "Apple", 0, 5, 0⟩]

/-- Counterexample for C8: on a dataset whose (only) region has summed
sales `0`, the region aggregate row does not hold a margin equal to
profit / sales × 100 — the unguarded float division leaves it undefined. -/
theorem agg_margin_formula_cex :
    ¬ (∀ row ∈ regionAgg sampleC8,
        row.margin = some (row.profit / row.sales * 100)) := by
  intro h
  have hm : regionAgg sampleC8 = [⟨"North", 0, 5, none⟩] := by
    simp +decide [regionAgg, regionKeys, sampleC8, sumSales, sumProfit, fdiv,
      List.insertionSort, List.orderedInsert]
  have h2 := h ⟨"North", 0, 5, none⟩ (by rw [hm]; exact List.mem_singleton_self _)
  simp at h2

/-- C8 (amended): every aggregate row holds its group's summed sales and
summed profit; the region and region-year rows additionally hold a
derived profit margin equal to profit / sales × 100 whenever the group's
summed sales is nonzero, and an undefined (non-finite) margin when the
group's summed sales is 0; the monthly and category rows hold no margin
(their dataframes carry no `Margin` column, cf. `MonthlyRow`, `CatRow`). -/
theorem agg_rows_amended (ds : List Record) :
    (∀ row ∈ regionAgg ds,
        row.sales = sumSales (ds.filter (fun r => r.region == row.region))
          ∧ row.profit = sumProfit (ds.filter (fun r => r.region == row.region))
          ∧ (row.sales ≠ 0 → row.margin = some (row.profit / row.sales * 100))
          ∧ (row.sales = 0 → row.margin = none))
      ∧ (∀ row ∈ regionYearAgg ds,
          row.sales = sumSales (ds.filter (fun r =>
              r.region == row.region && r.year == row.year))
            ∧ row.profit = sumProfit (ds.filter (fun r =>
              r.region == row.region && r.year == row.year))
            ∧ (row.sales ≠ 0 → row.margin = some (row.profit / row.sales * 100))
            ∧ (row.sales = 0 → row.margin = none))
      ∧ (∀ row ∈ monthlyAgg ds,
          row.sales = sumSales (ds.filter (fun r => monthIdx r == row.bucket))
            ∧ row.profit = sumProfit (ds.filter (fun r => monthIdx r == row.bucket)))
      ∧ (∀ row ∈ categoryAgg ds,
          row.sales = sumSales (ds.filter (fun r => r.category == row.category))
            ∧ row.profit = sumProfit (ds.filter (fun r => r.category == row.category))) := by
  refine ⟨?_, ?_, ?_, ?_⟩
  · intro row hrow
    obtain ⟨g, hg, rfl⟩ := List.mem_map.mp hrow
    refine ⟨rfl, rfl, ?_, ?_⟩
    · intro hs
      simp only [fdiv] at *
      rw [if_neg hs]
      rfl
    · intro hs
      simp only [fdiv] at *
      rw [if_pos hs]
      rfl
  · intro row hrow
    obtain ⟨k, hk, rfl⟩ := List.mem_map.mp hrow
    refine ⟨rfl, rfl, ?_, ?_⟩
    · intro hs
      simp only [fdiv] at *
      rw [if_neg hs]
      rfl
    · intro hs
      simp only [fdiv] at *
      rw [if_pos hs]
      rfl
  · intro row hrow
    cases ds with
    | nil => cases hrow
    | cons x xs =>
      obtain ⟨b, hb, rfl⟩ := List.mem_map.mp hrow
      exact ⟨rfl, rfl⟩
  · intro row hrow
    obtain ⟨c, hc, rfl⟩ := List.mem_map.mp hrow
    exact ⟨rfl, rfl⟩

/-- A dataset with one region of nonzero sales, used to witness C8. -/
def sampleC8w : List Record :=
  [⟨⟨2023, 1, 15⟩, "O1", "South", "Fruit", "Apple", 100, 20, 0⟩]

/-- Witness for C8 (amended): in the sample dataset the South region row
has nonzero sales and its margin is exactly profit / sales × 100. -/
theorem agg_rows_amended_witness :
    (RegionRow.mk "South" 100 20 (some 20)).margin
      = some ((RegionRow.mk "South" 100 20 (some 20)).profit
          / (RegionRow.mk "South" 100 20 (some 20)).sales * 100) :=
  ((agg_rows_amended sampleC8w).1 ⟨"South", 100, 20, some 20⟩
    (by simp +decide [regionAgg, regionKeys, sampleC8w, sumSales, sumProfit, fdiv,
      List.insertionSort, List.orderedInsert])).2.2.1
    (by norm_num)

/-- C9: the per-region and per-(region, year) margins are computed by an
unguarded division: a group with nonzero summed sales gets a defined
rational margin, a group with summed sales 0 gets an undefined margin
(no branch produces 0), and these rows are exactly what reaches the
margin bar series and the scatter series. -/
theorem region_margin_unguarded (ds : List Record) :
    (∀ row ∈ regionAgg ds,
        (row.sales ≠ 0 → ∃ q, row.margin = some q)
          ∧ (row.sales = 0 → row.margin = none))
      ∧ (∀ row ∈ regionYearAgg ds,
        (row.sales ≠ 0 → ∃ q, row.margin = some q)
          ∧ (row.sales = 0 → row.margin = none))
      ∧ (updateRegionAnalysis ds Metric.Margin).barSeries
          = (regionAgg ds).map (fun row => (row.region, row.margin))
      ∧ (∀ m : Metric, (updateRegionAnalysis ds m).scatterData = regionYearAgg ds) := by
  refine ⟨?_, ?_, rfl, fun _ => rfl⟩
  · intro row hrow
    obtain ⟨g, hg, rfl⟩ := List.mem_map.mp hrow
    constructor
    · intro hs
      simp only [fdiv] at *
      rw [if_neg hs]
      exact ⟨_, rfl⟩
    · intro hs
      simp only [fdiv] at *
      rw [if_pos hs]
      rfl
  · intro row hrow
    obtain ⟨k, hk, rfl⟩ := List.mem_map.mp hrow
    constructor
    · intro hs
      simp only [fdiv] at *
      rw [if_neg hs]
      exact ⟨_, rfl⟩
    · intro hs
      simp only [fdiv] at *
      rw [if_pos hs]
      rfl

/-- A dataset whose single region has summed sales `0`, used to witness C9. -/
def sampleC9 : List Record :=
  [⟨⟨2023, 1, 15⟩, "O1", "Z", "Fruit", "Apple", 0, 5, 0⟩]

/-- Witness for C9: the zero-sales region row's margin is undefined. -/
theorem region_margin_unguarded_witness :
    (RegionRow.mk "Z" 0 5 none).margin = none :=
  ((region_margin_unguarded sampleC9).1 ⟨"Z", 0, 5, none⟩
    (by simp +decide [regionAgg, regionKeys, sampleC9, sumSales, sumProfit, fdiv,
      List.insertionSort, List.orderedInsert])).2 rfl

end Supermart

namespace Supermart

/-- A one-record dataset used to witness C7. -/
def sampleC7 : List Record :=
  [⟨⟨2023, 1, 15⟩, "O1", "South", "Fruit", "Apple", 100, 20, 0⟩]

/-- Witness for C7 (amended): the single top-10 row of the sample dataset
is a row of the grouped (category, sub-category) sales sums. -/
theorem top10_subcategory_spec_witness :
    (SubcatRow.mk "Fruit" "Apple" 100)
      ∈ subcategoryAgg (sampleC7.filter (fun r => decide (r.category ∈ ["Fruit"]))) :=
  (top10_subcategory_spec sampleC7 ["Fruit"]).2.2 ⟨"Fruit", "Apple", 100⟩
    (by simp +decide [updateCategoryAnalysis, catOutputs, top10Subcats,
      subcategoryAgg, sampleC7, sumSales, List.insertionSort, List.orderedInsert])

end Supermart
